import Mathlib

/-!
Verification of the mispm Centiloid quantification pipeline
(`src/mispmsrc/CLRefactoring/`) against its natural-language specification.

The embedding models IEEE-754 double values as an inductive type `FVal`
(a finite rational, the two infinities, or NaN) with IEEE comparison and
arithmetic semantics, since numeric robustness of the pipeline hinges on
NaN/inf propagation.  Pure numeric code on already-validated (finite)
arrays is modelled directly over `ℚ`.
-/

namespace Mispm

/-- Model of an IEEE-754 double: a finite rational, +inf, -inf, or NaN.
(Rationals idealize the finite floats; rounding is not modelled.) -/
inductive FVal where
  | fin : ℚ → FVal
  | pinf : FVal
  | ninf : FVal
  | nan : FVal
deriving DecidableEq, Repr

namespace FVal

/-- `np.isnan`. -/
def isNaN : FVal → Bool
  | nan => true
  | _ => false

/-- `np.isfinite`. -/
def isFinite : FVal → Bool
  | fin _ => true
  | _ => false

/-- IEEE negation. -/
def neg : FVal → FVal
  | fin q => fin (-q)
  | pinf => ninf
  | ninf => pinf
  | nan => nan

/-- IEEE addition (NaN propagates; inf + -inf = NaN). -/
def add : FVal → FVal → FVal
  | nan, _ => nan
  | _, nan => nan
  | fin a, fin b => fin (a + b)
  | fin _, pinf => pinf
  | pinf, fin _ => pinf
  | pinf, pinf => pinf
  | fin _, ninf => ninf
  | ninf, fin _ => ninf
  | ninf, ninf => ninf
  | pinf, ninf => nan
  | ninf, pinf => nan

/-- IEEE subtraction. -/
def sub (a b : FVal) : FVal := add a (neg b)

/-- IEEE multiplication (0 * inf = NaN). -/
def mul : FVal → FVal → FVal
  | nan, _ => nan
  | _, nan => nan
  | fin a, fin b => fin (a * b)
  | fin a, pinf => if 0 < a then pinf else if a < 0 then ninf else nan
  | pinf, fin a => if 0 < a then pinf else if a < 0 then ninf else nan
  | fin a, ninf => if 0 < a then ninf else if a < 0 then pinf else nan
  | ninf, fin a => if 0 < a then ninf else if a < 0 then pinf else nan
  | pinf, pinf => pinf
  | ninf, ninf => pinf
  | pinf, ninf => ninf
  | ninf, pinf => ninf

/-- IEEE division (x/0 = ±inf by sign of x, 0/0 = NaN, inf/inf = NaN;
`ℚ` has no signed zero, so finite/±inf is plain 0). -/
def div : FVal → FVal → FVal
  | nan, _ => nan
  | _, nan => nan
  | fin a, fin b =>
      if b ≠ 0 then fin (a / b)
      else if 0 < a then pinf else if a < 0 then ninf else nan
  | fin _, pinf => fin 0
  | fin _, ninf => fin 0
  | pinf, fin b => if 0 ≤ b then pinf else ninf
  | ninf, fin b => if 0 ≤ b then ninf else pinf
  | pinf, pinf => nan
  | pinf, ninf => nan
  | ninf, pinf => nan
  | ninf, ninf => nan

/-- IEEE strict comparison: any comparison with NaN is false. -/
def lt : FVal → FVal → Bool
  | nan, _ => false
  | _, nan => false
  | fin a, fin b => decide (a < b)
  | fin _, pinf => true
  | pinf, _ => false
  | ninf, fin _ => true
  | ninf, pinf => true
  | ninf, ninf => false
  | fin _, ninf => false

/-- IEEE non-strict comparison: any comparison with NaN is false. -/
def le (a b : FVal) : Bool := !a.isNaN && !b.isNaN && (a == b || lt a b)

end FVal

/-- `np.sum` over a 1-D array (association does not matter for the
inf/NaN cases the pipeline can reach, so sequential folding is faithful). -/
def fsum (xs : List FVal) : FVal := xs.foldl FVal.add (.fin 0)

/-- `np.mean` over a 1-D array: sum divided by length (mean of an empty
array is NaN, matching numpy's 0/0). -/
def fmean (xs : List FVal) : FVal := (fsum xs).div (.fin xs.length)

/-- `np.count_nonzero`: NaN and infinities count as nonzero. -/
def countNonzero (xs : List FVal) : ℕ := (xs.filter (fun v => v ≠ .fin 0)).length

/-- `np.any(mask > 0)`. -/
def anyPos (mask : List FVal) : Bool := mask.any (fun v => FVal.lt (.fin 0) v)

/-- Boolean-mask selection `img[mask > 0]` over parallel flat arrays. -/
def selectPos (img mask : List FVal) : List FVal :=
  (img.zip mask).filterMap (fun p => if FVal.lt (.fin 0) p.2 then some p.1 else none)

/-- `np.mean` over an exact rational array (used for the pure numeric code
paths that operate on already-validated finite values). -/
def lmean (xs : List ℚ) : ℚ := xs.sum / xs.length

/-- `str.join` with `"\n"` (used by the batch error report,
`suvr_calc.py` line 223). -/
def joinNl : List String → String
  | [] => ""
  | [s] => s
  | s :: rest => s ++ "\n" ++ joinNl rest

/-- Whether `p` is a prefix of `l` (character-list level). -/
def hasPfx : List Char → List Char → Bool
  | [], _ => true
  | _ :: _, [] => false
  | a :: as, b :: bs => a == b && hasPfx as bs

/-- Whether `p` occurs as a contiguous run inside `s` (character-list
level): Python's `p in s` substring test. -/
def subOf (p s : List Char) : Bool :=
  (List.range (s.length + 1)).any (fun i => hasPfx p (s.drop i))

/-- Python's `sub in s` substring test on strings. -/
def strContainsSub (s sub : String) : Bool := subOf sub.toList s.toList

/-! ## CLCalculator (`CL_calc_test.py`) -/

/-- The slope chosen by `CLCalculator.calculate` (`CL_calc_test.py` lines
27-34): the fallback constant 100 when `|adMean - ycMean| < 0.001`, else
`100 / (adMean - ycMean)`. -/
def clSlope (ad_suvr yc_suvr : List ℚ) : ℚ :=
  if |lmean ad_suvr - lmean yc_suvr| < 1/1000 then 100
  else 100 / (lmean ad_suvr - lmean yc_suvr)

/-- `CLCalculator.calculate` (`CL_calc_test.py` lines 10-48): returns
`(ad_cl, yc_cl, yc_mean, ad_mean)` with `CL(x) = slope * (x - yc_mean)`
applied elementwise to both cohorts. -/
def clCalculate (ad_suvr yc_suvr : List ℚ) :
    List ℚ × List ℚ × ℚ × ℚ :=
  let suvr_yc_mean := lmean yc_suvr
  let slope := clSlope ad_suvr yc_suvr
  (ad_suvr.map (fun x => slope * (x - suvr_yc_mean)),
   yc_suvr.map (fun x => slope * (x - suvr_yc_mean)),
   suvr_yc_mean, lmean ad_suvr)

/-! ## SUVRCalculator (`suvr_calc.py`) -/

/-- `np.finfo(float64).max`, the value `np.nan_to_num` substitutes for
`+inf`. -/
def FLOAT64MAX : ℚ := 17976931348623157 * 10 ^ 292

/-- Elementwise behaviour of `np.nan_to_num(x, 0)` (`suvr_calc.py` line
128): the second positional argument is `copy`, so the replacement values
are the defaults — NaN becomes 0, `+inf`/`-inf` become the largest /
most negative finite double. -/
def nanToNum : FVal → FVal
  | .nan => .fin 0
  | .pinf => .fin FLOAT64MAX
  | .ninf => .fin (-FLOAT64MAX)
  | .fin q => .fin q

/-- The NaN-cleanup step (`suvr_calc.py` lines 123-128): `nan_to_num` is
applied only when the volume contains at least one NaN voxel. -/
def handleNaN (img : List FVal) : List FVal :=
  if 0 < (img.filter (fun v => v.isNaN)).length then img.map nanToNum else img

/-- Per-file outcome inside `SUVRCalculator.calculate`: a valid SUVR value
appended to the outputs, or a skip whose message is appended to `errors`. -/
inductive FileOutcome where
  | ok : FVal → FileOutcome
  | skip : String → FileOutcome
deriving DecidableEq, Repr

/-- `roi_voxels = pet_img * roi_resampled` (`suvr_calc.py` line 149) on the
cleaned volume. -/
def roiVoxOf (roi pet : List FVal) : List FVal :=
  List.zipWith FVal.mul (handleNaN pet) roi

/-- `ref_voxels = pet_img * ref_resampled` (`suvr_calc.py` line 150) on the
cleaned volume. -/
def refVoxOf (ref pet : List FVal) : List FVal :=
  List.zipWith FVal.mul (handleNaN pet) ref

/-- `ref_sum = np.sum(ref_voxels)` (`suvr_calc.py` line 172). -/
def refSumOf (ref pet : List FVal) : FVal := fsum (refVoxOf ref pet)

/-- The retried reference mean (`suvr_calc.py` line 178):
`np.mean(pet_img[ref_resampled > 0]) if np.any(ref_resampled > 0) else 0`. -/
def refMeanRetry (ref pet : List FVal) : FVal :=
  if anyPos ref then fmean (selectPos (handleNaN pet) ref) else .fin 0

/-- The ROI mean used in the retry branch (`suvr_calc.py` line 184). -/
def roiMeanRetry (roi pet : List FVal) : FVal :=
  if anyPos roi then fmean (selectPos (handleNaN pet) roi) else .fin 0

/-- The reference denominator `suv_ref` that reaches the final SUVR
division (`suvr_calc.py` lines 175-189): the retried mean when the masked
sum is non-positive, else `ref_sum / max(num_ref, 1)`. -/
def suvRefOf (ref pet : List FVal) : FVal :=
  if FVal.le (refSumOf ref pet) (.fin 0) then refMeanRetry ref pet
  else FVal.div (refSumOf ref pet) (.fin (max (countNonzero (refVoxOf ref pet)) 1))

/-- The numerator `suv_roi` matching `suvRefOf`'s branch
(`suvr_calc.py` lines 184-188). -/
def suvRoiOf (roi ref pet : List FVal) : FVal :=
  if FVal.le (refSumOf ref pet) (.fin 0) then roiMeanRetry roi pet
  else FVal.div (fsum (roiVoxOf roi pet)) (.fin (max (countNonzero (roiVoxOf roi pet)) 1))

/-- Final SUVR computation and validation (`suvr_calc.py` lines 191-211):
require `suv_ref > 0`, divide, and require a finite result. -/
def finishSUVR (fp : String) (suvRoi suvRef : FVal) : FileOutcome :=
  if FVal.lt (.fin 0) suvRef then
    let suvr := FVal.div suvRoi suvRef
    if suvr.isFinite then .ok suvr
    else .skip ("Invalid SUVR value in " ++ fp)
  else .skip ("Zero reference SUV in " ++ fp)

/-- Per-file body of `SUVRCalculator.calculate` (`suvr_calc.py` lines
109-211) for a loaded volume: empty-data check, NaN cleanup, mask
multiplication, voxel counting, masked means with the non-positive
reference-sum retry, and SUVR validation.  `roi` and `ref` are the
(resampled) masks on the volume's grid; the existence / load / resampling
steps that precede this body are I/O and are abstracted by the per-file
`process` function of `calculate` below.  The 4D-to-3D first-frame
extraction (lines 119-121) is a reshape and is modelled by presenting the
volume as its flat 3D voxel list. -/
def processVolume (fp : String) (roi ref pet : List FVal) : FileOutcome :=
  if pet.length = 0 then .skip ("Empty image data in " ++ fp)
  else
    let roiVox := roiVoxOf roi pet
    let refVox := refVoxOf ref pet
    if countNonzero roiVox = 0 then .skip ("No ROI voxels in " ++ fp)
    else if countNonzero refVox = 0 then .skip ("No reference voxels in " ++ fp)
    else
      if FVal.le (refSumOf ref pet) (.fin 0) then
        if FVal.le (refMeanRetry ref pet) (.fin 0) then
          .skip ("Zero or negative reference mean in " ++ fp)
        else finishSUVR fp (roiMeanRetry roi pet) (refMeanRetry ref pet)
      else finishSUVR fp
        (FVal.div (fsum roiVox) (.fin (max (countNonzero roiVox) 1)))
        (FVal.div (fsum refVox) (.fin (max (countNonzero refVox) 1)))

/-- Accumulated state of the batch loop of `SUVRCalculator.calculate`
(`suvr_calc.py` lines 91-94): valid values, their files, and the error
messages of skipped files, all in input order. -/
structure BatchRun where
  suvrValues : List FVal
  filteredFiles : List String
  errors : List String
deriving DecidableEq, Repr

/-- The batch loop (`suvr_calc.py` lines 98-216) over an abstract per-file
evaluation `process` (covering existence check, load, resampling and
`processVolume` for that file). -/
def batchRun (process : String → FileOutcome) : List String → BatchRun
  | [] => ⟨[], [], []⟩
  | fp :: rest =>
    let r := batchRun process rest
    match process fp with
    | .ok v => ⟨v :: r.suvrValues, fp :: r.filteredFiles, r.errors⟩
    | .skip m => ⟨r.suvrValues, r.filteredFiles, m :: r.errors⟩

/-- The message of the `ValueError` raised when no file yields a valid
SUVR (`suvr_calc.py` line 220). -/
def noValidMsg (n : ℕ) : String :=
  "No valid SUVR values could be calculated from " ++ toString n ++ " files"

/-- The aggregated error report written to the log (`suvr_calc.py` lines
222-225): the first 10 error messages joined by newlines, plus a count of
the remainder when more than 10. -/
def errorDetails (errors : List String) : String :=
  let d := joinNl (errors.take 10)
  if 10 < errors.length then
    d ++ "\n...and " ++ toString (errors.length - 10) ++ " more errors"
  else d

/-- `SUVRCalculator.calculate` at batch level (`suvr_calc.py` lines 83-235):
raises on an empty input list, raises `noValidMsg` when zero files produced
a valid SUVR, and otherwise returns the valid values with the parallel list
of successfully processed files. -/
def calculate (process : String → FileOutcome) (fps : List String) :
    Except String (List FVal × List String) :=
  if fps.length = 0 then .error "No PET files provided"
  else
    let r := batchRun process fps
    if r.suvrValues.length = 0 then .error (noValidMsg fps.length)
    else .ok (r.suvrValues, r.filteredFiles)

/-! ## Standard table handling (`PIB_SUVr_CLs_calc.py`,
`supplementary_table.py`) -/

/-- Data of one DataFrame column: numeric dtype or string/object dtype
(`pd.api.types.is_numeric_dtype` discriminates the two). -/
inductive ColData where
  | nums : List FVal → ColData
  | strs : List String → ColData
deriving DecidableEq, Repr

/-- One DataFrame column: its label and its data. -/
structure Col where
  name : String
  data : ColData
deriving DecidableEq, Repr

/-- `pd.api.types.is_numeric_dtype` on a column. -/
def Col.isNumeric (c : Col) : Bool :=
  match c.data with
  | .nums _ => true
  | .strs _ => false

/-- The numeric values of a column (empty for a string column). -/
def Col.numVals : Col → List FVal
  | ⟨_, .nums v⟩ => v
  | ⟨_, .strs _⟩ => []

/-- Number of rows of a column. -/
def Col.rows : Col → ℕ
  | ⟨_, .nums v⟩ => v.length
  | ⟨_, .strs v⟩ => v.length

/-- A parsed DataFrame: its ordered list of columns. -/
abbrev Table := List Col

/-- `df.empty`: no columns or no rows. -/
def tableEmpty (t : Table) : Bool :=
  match t with
  | [] => true
  | c :: _ => c.rows = 0

/-- Python's `str.zfill`. -/
def zfill (w : ℕ) (s : String) : String :=
  if s.length < w then String.mk (List.replicate (w - s.length) '0') ++ s else s

/-- `np.linspace(a, b, n)`: `n` evenly spaced samples from `a` to `b`
inclusive (step `(b-a)/(n-1)` for `n ≥ 2`; `[a]` for `n = 1`). -/
def linspace (a b : ℚ) (n : ℕ) : List ℚ :=
  if n ≤ 1 then (List.range n).map (fun _ => a)
  else (List.range n).map (fun (i : ℕ) => a + (b - a) * (i : ℚ) / ((n : ℚ) - 1))

/-- `PIBAnalyzer._create_synthetic_data` (`PIB_SUVr_CLs_calc.py` lines
323-340): the synthetic standard DataFrame built when Excel loading fails
(44 AD rows then 34 YC rows; note the `CL` column is given by its own
`linspace` calls, `linspace(50, 150, 44)` and `linspace(-20, 20, 34)`). -/
def createSyntheticData : Table :=
  [⟨"Subject",
    .strs ((List.range 44).map (fun i => "AD" ++ zfill 2 (toString (i + 1))) ++
           (List.range 34).map (fun i => "YC" ++ zfill 3 (toString (i + 101))))⟩,
   ⟨"Group", .strs (List.replicate 44 "AD" ++ List.replicate 34 "YC")⟩,
   ⟨"SUVR", .nums ((linspace (3/2) (5/2) 44 ++ linspace (9/10) (11/10) 34).map FVal.fin)⟩,
   ⟨"CL", .nums ((linspace 50 150 44 ++ linspace (-20) 20 34).map FVal.fin)⟩]

/-- `PIBAnalyzer._create_synthetic_values` (`PIB_SUVr_CLs_calc.py` lines
432-442), identical to `SupplementaryTable._create_synthetic_values`
(`supplementary_table.py` lines 222-236): the synthetic
`(ad_suvr, ad_cl, yc_suvr, yc_cl)` arrays built when value extraction
fails; here `CL = 100 * (SUVR - 1.0)` for both cohorts. -/
def createSyntheticValues : List ℚ × List ℚ × List ℚ × List ℚ :=
  let ad_suvr := linspace (3/2) (5/2) 44
  let yc_suvr := linspace (9/10) (11/10) 34
  (ad_suvr, ad_suvr.map (fun x => 100 * (x - 1)),
   yc_suvr, yc_suvr.map (fun x => 100 * (x - 1)))

/-- Outcome of the primary `pd.read_excel(..., engine='openpyxl')` attempt
(`PIB_SUVr_CLs_calc.py` line 296): a parsed table, an `ImportError`
(openpyxl missing), or any other exception. -/
inductive ExcelOutcome where
  | table : Table → ExcelOutcome
  | importErr : ExcelOutcome
  | failed : ExcelOutcome

/-- Outcome of the `xlrd` fallback attempt (line 307). -/
inductive AltOutcome where
  | table : Table → AltOutcome
  | failed : AltOutcome

/-- `PIBAnalyzer._load_standard_data` (`PIB_SUVr_CLs_calc.py` lines
290-321) over the outcomes of its three I/O attempts: openpyxl result
checked for empty / fewer-than-2-columns, `ImportError` falls back to
xlrd (returned unchecked), any other failure (including a failing xlrd)
falls back to a same-named CSV (`csv = none` when the CSV is missing or
unreadable), and synthetic data when everything failed. -/
def loadStandardData (excel : ExcelOutcome) (xlrd : AltOutcome)
    (csv : Option Table) : Table :=
  match excel with
  | .table t => if tableEmpty t || t.length < 2 then createSyntheticData else t
  | .importErr =>
      match xlrd with
      | .table t => t
      | .failed => match csv with
        | some t => t
        | none => createSyntheticData
  | .failed => match csv with
      | some t => t
      | none => createSyntheticData

/-- Python's `str.upper()` (per-character upper-casing, which is what it
does on the ASCII column labels involved). -/
def strUpper (s : String) : String := String.mk (s.data.map Char.toUpper)

/-- Header keyword test of `SupplementaryTable.identify_columns`
(`supplementary_table.py` lines 109, 133): some keyword is a substring of
the upper-cased column label. -/
def nameHasKw (kws : List String) (c : Col) : Bool :=
  kws.any (fun kw => strContainsSub (strUpper c.name) kw)

/-- The column mean used by the range heuristic (`supplementary_table.py`
lines 120-121, 144-145): `np.nanmean(values[~np.isnan(values)])` — NaN
entries dropped, then the mean (NaN for an all-NaN or empty column). -/
def colRangeMean (c : Col) : FVal :=
  fmean (c.numVals.filter (fun v => !v.isNaN))

/-- Chained comparison `lo <= mean_val <= hi` on a possibly non-finite
mean. -/
def meanInRange (lo hi : ℚ) (c : Col) : Bool :=
  FVal.le (.fin lo) (colRangeMean c) && FVal.le (colRangeMean c) (.fin hi)

/-- SUVR-column identification of `SupplementaryTable.identify_columns`
(`supplementary_table.py` lines 103-125): first numeric column whose label
contains `SUVR`/`SUV`/`RATIO` case-insensitively; if none, first numeric
column whose NaN-free mean lies in `[0.8, 3.0]`. -/
def identifySuvrCol (t : Table) : Option Col :=
  match t.find? (fun c => c.isNumeric && nameHasKw ["SUVR", "SUV", "RATIO"] c) with
  | some c => some c
  | none => t.find? (fun c => c.isNumeric && meanInRange (4/5) 3 c)

/-- CL-column identification of `SupplementaryTable.identify_columns`
(`supplementary_table.py` lines 127-150): first numeric column whose label
contains `CL`/`CENTILOID` case-insensitively; if none, first numeric
column other than the already-assigned SUVR column whose NaN-free mean
lies in `[-30, 200]`. -/
def identifyClCol (t : Table) : Option Col :=
  match t.find? (fun c => c.isNumeric && nameHasKw ["CL", "CENTILOID"] c) with
  | some c => some c
  | none =>
      t.find? (fun c => c.isNumeric &&
        !(match identifySuvrCol t with
          | some s => c.name == s.name
          | none => false) &&
        meanInRange (-30) 200 c)

/-! ## Bland-Altman analysis (`plotting.py`) -/

/-- Length alignment of `AnalysisPlotter.plot_bland_altman`
(`plotting.py` lines 821-831): both arrays truncated to the shorter
length when lengths differ. -/
def baTrim (a b : List FVal) : List FVal × List FVal :=
  if a.length ≠ b.length then
    (a.take (min a.length b.length), b.take (min a.length b.length))
  else (a, b)

/-- NaN removal of `plot_bland_altman` (`plotting.py` lines 833-840): keep
exactly the positions where neither array is NaN (the mask
`~(np.isnan(std) | np.isnan(calc))` applied to both arrays). -/
def baClean (std calcv : List FVal) : List FVal × List FVal :=
  let s := (baTrim std calcv).1
  let c := (baTrim std calcv).2
  let kept := (s.zip c).filter (fun p => !p.1.isNaN && !p.2.isNaN)
  (kept.map Prod.fst, kept.map Prod.snd)

/-- The per-pair differences `calc - std` (`plotting.py` line 846). -/
def baDiffs (stdClean calcClean : List FVal) : List FVal :=
  List.zipWith FVal.sub calcClean stdClean

/-- The statistics of one Bland-Altman panel: `mean_diff = np.mean(diffs)`
(line 849) and the population variance, i.e. the square of
`std_diff = np.std(diffs)` (line 850).  The square root itself is
irrational in general; the limits of agreement are verified through the
variance (see the claim theorems). -/
structure BAStats where
  meanDiff : FVal
  varDiff : FVal
deriving DecidableEq, Repr

/-- One panel of `plot_bland_altman` (`plotting.py` lines 843-869): with
more than 2 cleaned points it computes the statistics, otherwise it
renders "Insufficient data" (`none`) and never raises. -/
def baHalf (std calcv : List FVal) : Option BAStats :=
  let s := (baClean std calcv).1
  let c := (baClean std calcv).2
  if 2 < s.length && 2 < c.length then
    let diffs := baDiffs s c
    some ⟨fmean diffs,
          fmean (diffs.map (fun d =>
            FVal.mul (FVal.sub d (fmean diffs)) (FVal.sub d (fmean diffs))))⟩
  else none

/-- `upper_loa = mean_diff + 1.96 * std_diff` (`plotting.py` line 851),
with the standard deviation passed explicitly. -/
def baUpperLoa (meanDiff sd : ℚ) : ℚ := meanDiff + 196/100 * sd

/-- `lower_loa = mean_diff - 1.96 * std_diff` (`plotting.py` line 852). -/
def baLowerLoa (meanDiff sd : ℚ) : ℚ := meanDiff - 196/100 * sd

/-! ## Mask resampling (`suvr_calc.py` lines 39-81) -/

/-- A mask volume: its shape and (flattened) voxel data. -/
structure MaskImg where
  shape : List ℕ
  data : List FVal
deriving DecidableEq, Repr

/-- Per-axis zoom factors (`suvr_calc.py` lines 45-50): `target/current`,
defaulting to 1 on a zero-length axis. -/
def zoomFactors (targetShape curShape : List ℕ) : List ℚ :=
  (targetShape.zip curShape).map
    (fun p => if p.2 = 0 then 1 else (p.1 : ℚ) / (p.2 : ℚ))

/-- The `while len(zoom_factors) < 3: append 1` step (lines 57-59). -/
def padTo3 (zf : List ℚ) : List ℚ := zf ++ List.replicate (3 - zf.length) 1

/-- Zero-pad widths (`suvr_calc.py` lines 66-71): `(0, target - resampled)`
on each axis where the resampled output is smaller. -/
def padWidths (targetShape resShape : List ℕ) : List (ℕ × ℕ) :=
  (targetShape.zip resShape).map
    (fun p => if p.2 < p.1 then (0, p.1 - p.2) else (0, 0))

/-- `SUVRCalculator._resample_mask` (`suvr_calc.py` lines 39-81).  The two
library calls are abstracted as parameters: `scipyZoom` is
`scipy.ndimage.zoom(..., order=0, mode='nearest')` and `npPad` is
`np.pad(..., mode='constant')`.  If the mask's shape already equals the
target shape the mask is returned unchanged; otherwise zoom factors are
computed, the zoom is applied, and the result is zero-padded on any axis
that is still too small. -/
def resampleMask (scipyZoom : MaskImg → List ℚ → MaskImg)
    (npPad : MaskImg → List (ℕ × ℕ) → MaskImg)
    (mask : MaskImg) (targetShape : List ℕ) : MaskImg :=
  if mask.shape = targetShape then mask
  else
    let zf := padTo3 (zoomFactors targetShape mask.shape)
    let res := scipyZoom mask (zf.take 3)
    let pw := padWidths targetShape res.shape
    if pw.any (fun p => 0 < p.2) then npPad res pw else res

lemma sum_map_affine (s c : ℚ) (xs : List ℚ) :
    (xs.map (fun x => s * (x - c))).sum = s * xs.sum - xs.length * (s * c) := by
  induction xs with
  | nil => simp
  | cons a t ih => simp [ih]; ring

lemma lmean_map_affine (s c : ℚ) (xs : List ℚ) (h : xs ≠ []) :
    lmean (xs.map (fun x => s * (x - c))) = s * (lmean xs - c) := by
  have hn : (xs.length : ℚ) ≠ 0 := by
    exact_mod_cast Nat.cast_ne_zero.mpr (List.length_pos.mpr h).ne'
  unfold lmean
  rw [List.length_map, sum_map_affine]
  field_simp
  ring

/-- C1: for non-empty cohorts whose SUVR means differ by at least 0.001 in
absolute value, `CLCalculator.calculate` anchors the scale exactly:
`mean(CL(ycSUVR)) = 0` and `mean(CL(adSUVR)) = 100` (exact equality in the
rational model, hence within the claimed floating tolerance 1e-9). -/
theorem c1_centiloid_anchors (ad yc : List ℚ) (had : ad ≠ []) (hyc : yc ≠ [])
    (hdiff : 1/1000 ≤ |lmean ad - lmean yc|) :
    lmean (clCalculate ad yc).2.1 = 0 ∧ lmean (clCalculate ad yc).1 = 100 ∧
    |lmean (clCalculate ad yc).2.1 - 0| ≤ 1/10^9 ∧
    |lmean (clCalculate ad yc).1 - 100| ≤ 1/10^9 := by
  have hne : lmean ad - lmean yc ≠ 0 := by
    intro h0
    rw [h0] at hdiff
    simp at hdiff
    linarith
  have hslope : clSlope ad yc = 100 / (lmean ad - lmean yc) := by
    unfold clSlope
    rw [if_neg (not_lt.mpr hdiff)]
  have hy : lmean (clCalculate ad yc).2.1 = 0 := by
    show lmean (yc.map fun x => clSlope ad yc * (x - lmean yc)) = 0
    rw [lmean_map_affine _ _ _ hyc]
    ring
  have ha : lmean (clCalculate ad yc).1 = 100 := by
    show lmean (ad.map fun x => clSlope ad yc * (x - lmean yc)) = 100
    rw [lmean_map_affine _ _ _ had, hslope]
    field_simp
  refine ⟨hy, ha, ?_, ?_⟩
  · rw [hy]; norm_num
  · rw [ha]; norm_num

/-- Witness for C1 at AD SUVR `[2]`, YC SUVR `[1]`. -/
theorem c1_centiloid_anchors_witness :
    ([(2 : ℚ)] ≠ []) ∧ ([(1 : ℚ)] ≠ []) ∧
    (1/1000 ≤ |lmean [(2 : ℚ)] - lmean [(1 : ℚ)]|) ∧
    lmean (clCalculate [(2 : ℚ)] [(1 : ℚ)]).2.1 = 0 ∧
    lmean (clCalculate [(2 : ℚ)] [(1 : ℚ)]).1 = 100 :=
  ⟨by decide, by decide, by norm_num [lmean],
   (c1_centiloid_anchors [2] [1] (by decide) (by decide)
      (by norm_num [lmean])).1,
   (c1_centiloid_anchors [2] [1] (by decide) (by decide)
      (by norm_num [lmean])).2.1⟩

/-- C2: in `CLCalculator.calculate`, for non-empty inputs, the fallback
branch yields slope 100 exactly when `|adMean - ycMean| < 0.001`, the other
branch yields `100/(adMean - ycMean)`, and in both cases the returned CL
arrays are `slope * (x - ycMean)` applied elementwise to both cohorts. -/
theorem c2_slope_fallback_iff (ad yc : List ℚ) (had : ad ≠ []) (hyc : yc ≠ []) :
    (|lmean ad - lmean yc| < 1/1000 → clSlope ad yc = 100) ∧
    (¬ |lmean ad - lmean yc| < 1/1000 →
      clSlope ad yc = 100 / (lmean ad - lmean yc)) ∧
    (clCalculate ad yc).1 = ad.map (fun x => clSlope ad yc * (x - lmean yc)) ∧
    (clCalculate ad yc).2.1 = yc.map (fun x => clSlope ad yc * (x - lmean yc)) := by
  refine ⟨fun h => ?_, fun h => ?_, rfl, rfl⟩
  · unfold clSlope; rw [if_pos h]
  · unfold clSlope; rw [if_neg h]

/-- Witness for C2 at AD SUVR `[2]`, YC SUVR `[1]` (division branch). -/
theorem c2_slope_fallback_iff_witness :
    clSlope [(2 : ℚ)] [(1 : ℚ)] = 100 / (lmean [(2 : ℚ)] - lmean [(1 : ℚ)]) ∧
    (clCalculate [(2 : ℚ)] [(1 : ℚ)]).1 =
      [(2 : ℚ)].map (fun x => clSlope [(2 : ℚ)] [(1 : ℚ)] * (x - lmean [(1 : ℚ)])) :=
  ⟨(c2_slope_fallback_iff [2] [1] (by decide) (by decide)).2.1
      (by norm_num [lmean]),
   (c2_slope_fallback_iff [2] [1] (by decide) (by decide)).2.2.1⟩

/-! ### Claim C9: resampling is the identity on matching shapes -/

/-- C9: for every mask and target shape, whatever the behaviour of the
external `scipy.ndimage.zoom` and `np.pad` calls, `_resample_mask` returns
the mask unchanged when its shape already equals the target shape. -/
theorem c9_resample_identity
    (scipyZoom : MaskImg → List ℚ → MaskImg)
    (npPad : MaskImg → List (ℕ × ℕ) → MaskImg)
    (mask : MaskImg) (targetShape : List ℕ) (h : mask.shape = targetShape) :
    resampleMask scipyZoom npPad mask targetShape = mask := by
  unfold resampleMask
  rw [if_pos h]

/-- Witness for C9 on a concrete 2×2×2 mask. -/
theorem c9_resample_identity_witness :
    resampleMask (fun m _ => m) (fun m _ => m)
      ⟨[2, 2, 2], [.fin 1, .fin 0]⟩ [2, 2, 2] = ⟨[2, 2, 2], [.fin 1, .fin 0]⟩ :=
  c9_resample_identity _ _ _ _ rfl

/-! ### Claim C4: the NaN cleanup step -/

lemma isNaN_nanToNum (v : FVal) : (nanToNum v).isNaN = false := by
  cases v <;> rfl

/-- C4 counterexample: the cleanup does not replace every non-finite voxel
with zero.  A volume whose only non-finite voxel is `+inf` is left
untouched (the `nan_to_num` call is guarded by `nan_count > 0`), and even
when a NaN triggers the call, `np.nan_to_num(x, 0)` passes `0` as the
`copy` argument, so `+inf` becomes the largest finite double, not zero. -/
theorem c4_counterexample :
    handleNaN [FVal.pinf] = [FVal.pinf] ∧
    FVal.isFinite FVal.pinf = false ∧
    handleNaN [FVal.nan, FVal.pinf] = [FVal.fin 0, FVal.fin FLOAT64MAX] ∧
    FVal.fin FLOAT64MAX ≠ FVal.fin 0 := by
  refine ⟨rfl, rfl, rfl, ?_⟩
  intro h
  have : FLOAT64MAX = 0 := FVal.fin.inj h
  norm_num [FLOAT64MAX] at this

/-- C4 amended: the cleanup step preserves the volume's length, replaces
every NaN voxel with zero, and guarantees the cleaned volume is NaN-free —
but it does not zero (or even remove) infinities, so the cleaned volume
may still contain non-finite values. -/
theorem c4_nan_cleanup_amended (img : List FVal) (i : ℕ) :
    (handleNaN img).length = img.length ∧
    (img[i]? = some .nan → (handleNaN img)[i]? = some (.fin 0)) ∧
    (∀ v, (handleNaN img)[i]? = some v → v.isNaN = false) := by
  have hclean : ¬ 0 < (img.filter (fun v => v.isNaN)).length →
      ∀ v ∈ img, v.isNaN = false := by
    intro h v hv
    by_contra hb
    have hb' : v.isNaN = true := by
      cases hvn : v.isNaN
      · exact absurd hvn hb
      · rfl
    have : v ∈ img.filter (fun v => v.isNaN) := List.mem_filter.mpr ⟨hv, hb'⟩
    exact h (List.length_pos.mpr (List.ne_nil_of_mem this))
  unfold handleNaN
  by_cases h : 0 < (img.filter (fun v => v.isNaN)).length
  · rw [if_pos h]
    refine ⟨List.length_map _ _, fun hnan => ?_, fun v hv => ?_⟩
    · rw [List.getElem?_map, hnan]
      rfl
    · rw [List.getElem?_map] at hv
      cases hg : img[i]? with
      | none => rw [hg] at hv; exact absurd hv (by simp)
      | some w =>
        rw [hg] at hv
        simp only [Option.map_some'] at hv
        rw [← Option.some.inj hv]
        exact isNaN_nanToNum w
  · rw [if_neg h]
    refine ⟨rfl, fun hnan => ?_, fun v hv => ?_⟩
    · have hmem : FVal.nan ∈ img := by
        have := List.getElem?_mem hnan
        exact this
      have := hclean h _ hmem
      exact absurd this (by simp [FVal.isNaN])
    · exact hclean h _ (List.getElem?_mem hv)

/-- Witness for C4 (amended) on the volume `[NaN, +inf]`. -/
theorem c4_nan_cleanup_amended_witness :
    (handleNaN [FVal.nan, FVal.pinf])[0]? = some (.fin 0) ∧
    ∀ v, (handleNaN [FVal.nan, FVal.pinf])[1]? = some v → v.isNaN = false :=
  ⟨(c4_nan_cleanup_amended [FVal.nan, FVal.pinf] 0).2.1 rfl,
   (c4_nan_cleanup_amended [FVal.nan, FVal.pinf] 1).2.2⟩

/-! ### Claim C10: parallel outputs of the batch loop -/

lemma batchRun_length (process : String → FileOutcome) (fps : List String) :
    (batchRun process fps).suvrValues.length =
      (batchRun process fps).filteredFiles.length := by
  induction fps with
  | nil => rfl
  | cons fp rest ih =>
    simp only [batchRun]
    cases process fp <;> simpa using ih

lemma batchRun_sublist (process : String → FileOutcome) (fps : List String) :
    (batchRun process fps).filteredFiles.Sublist fps := by
  induction fps with
  | nil => exact List.Sublist.refl _
  | cons fp rest ih =>
    simp only [batchRun]
    cases process fp
    · exact List.Sublist.cons₂ _ ih
    · exact List.Sublist.cons _ ih

lemma batchRun_parallel (process : String → FileOutcome) (fps : List String) :
    ∀ (i : ℕ) (fp : String) (v : FVal),
      (batchRun process fps).filteredFiles[i]? = some fp →
      (batchRun process fps).suvrValues[i]? = some v →
      process fp = .ok v := by
  induction fps with
  | nil =>
    intro i fp v hf
    simp [batchRun] at hf
  | cons fp0 rest ih =>
    simp only [batchRun]
    cases hp : process fp0 with
    | ok w =>
      intro i fp v hf hv
      match i with
      | 0 =>
        simp only [List.getElem?_cons_zero, Option.some.injEq] at hf hv
        rw [← hf, ← hv]
        exact hp
      | j + 1 =>
        simp only [List.getElem?_cons_succ] at hf hv
        exact ih j fp v hf hv
    | skip m =>
      intro i fp v hf hv
      exact ih i fp v hf hv

/-- C10: whenever `SUVRCalculator.calculate` returns normally, the SUVR
array and the file list have equal length, the file list is an
order-preserving subsequence of the input list, and the i-th SUVR value is
the one produced by processing the i-th returned file. -/
theorem c10_parallel_outputs (process : String → FileOutcome)
    (fps : List String) (vals : List FVal) (files : List String)
    (h : calculate process fps = .ok (vals, files)) :
    vals.length = files.length ∧
    files.Sublist fps ∧
    ∀ (i : ℕ) (fp : String) (v : FVal), files[i]? = some fp → vals[i]? = some v →
      process fp = .ok v := by
  unfold calculate at h
  by_cases h0 : fps.length = 0
  · rw [if_pos h0] at h; exact absurd h (by simp)
  · rw [if_neg h0] at h
    by_cases h1 : (batchRun process fps).suvrValues.length = 0
    · rw [if_pos h1] at h; exact absurd h (by simp)
    · rw [if_neg h1] at h
      have hv : vals = (batchRun process fps).suvrValues ∧
          files = (batchRun process fps).filteredFiles := by
        have := Except.ok.inj h
        exact ⟨congrArg Prod.fst this.symm, congrArg Prod.snd this.symm⟩
      rw [hv.1, hv.2]
      exact ⟨batchRun_length process fps, batchRun_sublist process fps,
        batchRun_parallel process fps⟩

/-- Witness for C10 on a one-file batch that succeeds. -/
theorem c10_parallel_outputs_witness :
    [FVal.fin 1].length = ["a.nii"].length ∧ List.Sublist ["a.nii"] ["a.nii"] :=
  ⟨(c10_parallel_outputs (fun _ => .ok (.fin 1)) ["a.nii"] [.fin 1] ["a.nii"] rfl).1,
   (c10_parallel_outputs (fun _ => .ok (.fin 1)) ["a.nii"] [.fin 1] ["a.nii"] rfl).2.1⟩

/-! ### Claim C6: the non-positive-reference retry -/

lemma append_ne_append_of_length_ne (s1 s2 fp : String)
    (h : s1.length ≠ s2.length) : s1 ++ fp ≠ s2 ++ fp := by
  intro heq
  have := congrArg String.length heq
  rw [String.length_append, String.length_append] at this
  omega

lemma finishSUVR_ok (fp : String) (a b : FVal) (v : FVal)
    (h : finishSUVR fp a b = .ok v) :
    FVal.lt (.fin 0) b = true ∧ v = FVal.div a b := by
  unfold finishSUVR at h
  by_cases hb : FVal.lt (.fin 0) b = true
  · rw [if_pos hb] at h
    by_cases hf : (FVal.div a b).isFinite = true
    · rw [if_pos hf] at h
      exact ⟨hb, (FileOutcome.ok.inj h).symm⟩
    · rw [if_neg hf] at h
      exact absurd h (by simp)
  · rw [if_neg hb] at h
    exact absurd h (by simp)

lemma finishSUVR_ne_zeroRefMean (fp : String) (a b : FVal) :
    finishSUVR fp a b ≠ .skip ("Zero or negative reference mean in " ++ fp) := by
  unfold finishSUVR
  by_cases hb : FVal.lt (.fin 0) b = true
  · rw [if_pos hb]
    by_cases hf : (FVal.div a b).isFinite = true
    · rw [if_pos hf]; simp
    · rw [if_neg hf]
      intro h
      exact append_ne_append_of_length_ne _ _ fp (by decide) (FileOutcome.skip.inj h)
  · rw [if_neg hb]
    intro h
    exact append_ne_append_of_length_ne _ _ fp (by decide) (FileOutcome.skip.inj h)

/-- C6: when the masked reference sum is non-positive, the per-file
computation skips with the zero-reference message exactly when the retried
mean — `np.mean(pet[ref > 0])`, or 0 when no reference voxel is positive —
is also non-positive; and whenever the file produces a SUVR value at all,
the reference denominator that was used satisfies `suv_ref > 0` (in the
IEEE sense, which excludes NaN, zero and negative values). -/
theorem c6_zero_reference_guard (fp : String) (roi ref pet : List FVal)
    (hne : ¬ pet.length = 0)
    (hroi : ¬ countNonzero (roiVoxOf roi pet) = 0)
    (href : ¬ countNonzero (refVoxOf ref pet) = 0) :
    (FVal.le (refSumOf ref pet) (.fin 0) = true →
      (processVolume fp roi ref pet =
          .skip ("Zero or negative reference mean in " ++ fp) ↔
        FVal.le (refMeanRetry ref pet) (.fin 0) = true)) ∧
    (∀ v, processVolume fp roi ref pet = .ok v →
      FVal.lt (.fin 0) (suvRefOf ref pet) = true ∧
      v = FVal.div (suvRoiOf roi ref pet) (suvRefOf ref pet)) := by
  have hunfold : processVolume fp roi ref pet =
      if FVal.le (refSumOf ref pet) (.fin 0) then
        if FVal.le (refMeanRetry ref pet) (.fin 0) then
          .skip ("Zero or negative reference mean in " ++ fp)
        else finishSUVR fp (roiMeanRetry roi pet) (refMeanRetry ref pet)
      else finishSUVR fp
        (FVal.div (fsum (roiVoxOf roi pet))
          (.fin (max (countNonzero (roiVoxOf roi pet)) 1)))
        (FVal.div (fsum (refVoxOf ref pet))
          (.fin (max (countNonzero (refVoxOf ref pet)) 1))) := by
    unfold processVolume
    rw [if_neg hne, if_neg hroi, if_neg href]
  constructor
  · intro hsum
    rw [hunfold, if_pos hsum]
    by_cases hmean : FVal.le (refMeanRetry ref pet) (.fin 0) = true
    · rw [if_pos hmean]
      exact iff_of_true rfl hmean
    · rw [if_neg hmean]
      exact iff_of_false (finishSUVR_ne_zeroRefMean fp _ _) hmean
  · intro v hv
    rw [hunfold] at hv
    by_cases hsum : FVal.le (refSumOf ref pet) (.fin 0) = true
    · rw [if_pos hsum] at hv
      by_cases hmean : FVal.le (refMeanRetry ref pet) (.fin 0) = true
      · rw [if_pos hmean] at hv
        exact absurd hv (by simp)
      · rw [if_neg hmean] at hv
        have := finishSUVR_ok fp _ _ v hv
        unfold suvRefOf suvRoiOf
        rw [if_pos hsum, if_pos hsum]
        exact this
    · rw [if_neg hsum] at hv
      have := finishSUVR_ok fp _ _ v hv
      unfold suvRefOf suvRoiOf
      rw [if_neg hsum, if_neg hsum]
      unfold refSumOf
      exact this

/-- Witness for C6: volume `[4, -2]`, ROI mask `[1, 0]`, reference mask
`[0, 1]` — the masked reference sum is `-2 ≤ 0`, the retried mean is `-2`,
and the file is skipped with the zero-reference message. -/
theorem c6_zero_reference_guard_witness :
    FVal.le (refSumOf [.fin 0, .fin 1] [.fin 4, .fin (-2)]) (.fin 0) = true ∧
    FVal.le (refMeanRetry [.fin 0, .fin 1] [.fin 4, .fin (-2)]) (.fin 0) = true ∧
    processVolume "f.nii" [.fin 1, .fin 0] [.fin 0, .fin 1] [.fin 4, .fin (-2)] =
      .skip ("Zero or negative reference mean in " ++ "f.nii") := by
  have hsum : FVal.le (refSumOf [.fin 0, .fin 1] [.fin 4, .fin (-2)]) (.fin 0) = true := by
    simp only [refSumOf, refVoxOf, handleNaN, nanToNum, fsum, List.zipWith,
      List.filter, List.foldl]
    norm_num [FVal.isNaN, FVal.mul, FVal.add, FVal.le, FVal.lt]
  have hmean : FVal.le (refMeanRetry [.fin 0, .fin 1] [.fin 4, .fin (-2)]) (.fin 0) = true := by
    simp only [refMeanRetry, anyPos, selectPos, handleNaN, nanToNum, fmean, fsum,
      List.zip, List.zipWith, List.filterMap, List.filter, List.foldl, List.any]
    norm_num [FVal.isNaN, FVal.add, FVal.div, FVal.le, FVal.lt]
  have hroi : ¬ countNonzero (roiVoxOf [.fin 1, .fin 0] [.fin 4, .fin (-2)]) = 0 := by
    simp only [countNonzero, roiVoxOf, handleNaN, nanToNum, List.zipWith, List.filter]
    norm_num [FVal.isNaN, FVal.mul]
  have href : ¬ countNonzero (refVoxOf [.fin 0, .fin 1] [.fin 4, .fin (-2)]) = 0 := by
    simp only [countNonzero, refVoxOf, handleNaN, nanToNum, List.zipWith, List.filter]
    norm_num [FVal.isNaN, FVal.mul]
  exact ⟨hsum, hmean,
    ((c6_zero_reference_guard "f.nii" [.fin 1, .fin 0] [.fin 0, .fin 1]
        [.fin 4, .fin (-2)] (by norm_num) hroi href).1 hsum).mpr hmean⟩

/-! ### Claim C3: batch-level error aggregation -/

lemma hasPfx_self_append (p u : List Char) : hasPfx p (p ++ u) = true := by
  induction p with
  | nil => rfl
  | cons a as ih => simp [hasPfx, ih]

lemma subOf_append (t p u : List Char) : subOf p (t ++ (p ++ u)) = true := by
  unfold subOf
  rw [List.any_eq_true]
  refine ⟨t.length, List.mem_range.mpr ?_, ?_⟩
  · simp only [List.length_append]
    omega
  · rw [List.drop_left]
    exact hasPfx_self_append p u

lemma strContainsSub_of_decomp (s sub : String) (t u : List Char)
    (h : s.data = t ++ (sub.data ++ u)) : strContainsSub s sub = true := by
  unfold strContainsSub
  have h1 : s.toList = t ++ (sub.toList ++ u) := h
  rw [h1]
  exact subOf_append t sub.toList u

lemma joinNl_decomp (l : List String) (e : String) (he : e ∈ l) :
    ∃ t u, (joinNl l).data = t ++ (e.data ++ u) := by
  induction l with
  | nil => simp at he
  | cons s rest ih =>
    cases rest with
    | nil =>
      have : e = s := by simpa using he
      subst this
      exact ⟨[], [], by simp [joinNl]⟩
    | cons r rs =>
      rcases List.mem_cons.mp he with he1 | he2
      · subst he1
        refine ⟨[], "\n".data ++ (joinNl (r :: rs)).data, ?_⟩
        show (e ++ "\n" ++ joinNl (r :: rs)).data = _
        simp [String.data_append, List.append_assoc]
      · obtain ⟨t, u, ht⟩ := ih he2
        refine ⟨s.data ++ "\n".data ++ t, u, ?_⟩
        show (s ++ "\n" ++ joinNl (r :: rs)).data = _
        simp [String.data_append, ht, List.append_assoc]

lemma batchRun_values_nil (process : String → FileOutcome) (fps : List String) :
    (batchRun process fps).suvrValues = [] ↔
      ∀ fp ∈ fps, ∀ v, process fp ≠ .ok v := by
  induction fps with
  | nil => simp [batchRun]
  | cons fp rest ih =>
    simp only [batchRun]
    cases hp : process fp with
    | ok v =>
      refine iff_of_false (by simp) (fun hAll => ?_)
      exact hAll fp (List.mem_cons_self _ _) v hp
    | skip m =>
      constructor
      · intro hnil fp' hmem v heq
        rcases List.mem_cons.mp hmem with rfl | hm
        · rw [hp] at heq
          exact FileOutcome.noConfusion heq
        · exact ih.mp hnil fp' hm v heq
      · intro hAll
        exact ih.mpr (fun fp' hm v heq => hAll fp' (List.mem_cons_of_mem _ hm) v heq)

/-- C3 counterexample: a batch where every file is skipped does raise, but
the message of the raised `ValueError` is the fixed summary line — the
aggregated list of individual skip reasons is only written to the log, so
the raised message does not contain the skip reason. -/
theorem c3_counterexample :
    calculate (fun fp => processVolume fp [.fin 0] [.fin 1] [.fin 1]) ["subj1"] =
      .error (noValidMsg 1) ∧
    (batchRun (fun fp => processVolume fp [.fin 0] [.fin 1] [.fin 1]) ["subj1"]).errors =
      ["No ROI voxels in subj1"] ∧
    strContainsSub (noValidMsg 1) "No ROI voxels in subj1" = false := by
  have hp : processVolume "subj1" [.fin 0] [.fin 1] [.fin 1] =
      .skip ("No ROI voxels in subj1") := by
    simp only [processVolume, roiVoxOf, refVoxOf, handleNaN, nanToNum, countNonzero,
      List.zipWith, List.filter, List.foldl, List.length]
    norm_num [FVal.isNaN, FVal.mul]
    decide
  refine ⟨?_, ?_, by decide⟩
  · simp [calculate, batchRun, hp, noValidMsg]
  · simp [batchRun, hp]

/-- C3 amended: `SUVRCalculator.calculate` raises if and only if zero
files produced a valid SUVR; the raised message is the fixed summary
`noValidMsg`; the aggregated report that lists up to 10 individual skip
reasons plus a count of the remainder is the separately logged
`errorDetails` string (each of the first 10 reasons occurs in it, and
so does the remainder-count line when there are more than 10); and
whenever at least one file succeeded, all valid values are returned with
the parallel file list. -/
theorem c3_batch_error_amended (process : String → FileOutcome)
    (fps : List String) (h : fps ≠ []) :
    ((∃ e, calculate process fps = .error e) ↔
      ∀ fp ∈ fps, ∀ v, process fp ≠ .ok v) ∧
    ((∀ fp ∈ fps, ∀ v, process fp ≠ .ok v) →
      calculate process fps = .error (noValidMsg fps.length)) ∧
    ((∃ fp ∈ fps, ∃ v, process fp = .ok v) →
      calculate process fps =
        .ok ((batchRun process fps).suvrValues,
             (batchRun process fps).filteredFiles)) ∧
    (∀ e ∈ (batchRun process fps).errors.take 10,
      strContainsSub (errorDetails (batchRun process fps).errors) e = true) ∧
    (10 < (batchRun process fps).errors.length →
      strContainsSub (errorDetails (batchRun process fps).errors)
        ("...and " ++ toString ((batchRun process fps).errors.length - 10) ++
          " more errors") = true) := by
  have h0 : ¬ fps.length = 0 := fun hl => h (List.length_eq_zero.mp hl)
  refine ⟨?_, ?_, ?_, ?_, ?_⟩
  · unfold calculate
    rw [if_neg h0]
    by_cases hv : (batchRun process fps).suvrValues.length = 0
    · rw [if_pos hv]
      exact iff_of_true ⟨_, rfl⟩
        ((batchRun_values_nil process fps).mp (List.length_eq_zero.mp hv))
    · rw [if_neg hv]
      refine iff_of_false (by simp) (fun hAll => ?_)
      exact hv (by rw [(batchRun_values_nil process fps).mpr hAll]; rfl)
  · intro hAll
    unfold calculate
    rw [if_neg h0,
      if_pos (by rw [(batchRun_values_nil process fps).mpr hAll]; rfl)]
  · rintro ⟨fp, hm, v, hv⟩
    unfold calculate
    rw [if_neg h0, if_neg (fun hl => ?_)]
    exact ((batchRun_values_nil process fps).mp (List.length_eq_zero.mp hl))
      fp hm v hv
  · intro e he
    obtain ⟨t, u, ht⟩ := joinNl_decomp _ e he
    unfold errorDetails
    by_cases h10 : 10 < (batchRun process fps).errors.length
    · rw [if_pos h10]
      refine strContainsSub_of_decomp _ _ t
        (u ++ ("\n...and " ++
          toString ((batchRun process fps).errors.length - 10) ++
          " more errors").data) ?_
      simp only [String.data_append, ht, List.append_assoc]
    · rw [if_neg h10]
      exact strContainsSub_of_decomp _ _ t u ht
  · intro h10
    unfold errorDetails
    rw [if_pos h10]
    refine strContainsSub_of_decomp _ _
      ((joinNl ((batchRun process fps).errors.take 10)).data ++ ['\n']) [] ?_
    have hline : ("\n...and " : String).data = '\n' :: ("...and " : String).data := rfl
    simp only [String.data_append, hline, List.append_assoc, List.append_nil,
      List.cons_append, List.nil_append]

/-- Witness for C3 (amended): a one-file batch whose only file is skipped
raises with the fixed summary message. -/
theorem c3_batch_error_amended_witness :
    calculate (fun _ => FileOutcome.skip "File not found: x.nii") ["x.nii"] =
      .error (noValidMsg 1) :=
  (c3_batch_error_amended (fun _ => .skip "File not found: x.nii") ["x.nii"]
      (by decide)).2.1
    (fun _ _ v heq => FileOutcome.noConfusion heq)

/-! ### Claim C5: the synthetic standard-table fallback -/

lemma linspace_map_affine (s c a b : ℚ) (n : ℕ) :
    (linspace a b n).map (fun x => s * (x - c)) =
      linspace (s * (a - c)) (s * (b - c)) n := by
  unfold linspace
  by_cases h : n ≤ 1
  · rw [if_pos h, if_pos h, List.map_map]
    congr 1
  · rw [if_neg h, if_neg h, List.map_map]
    congr 1
    funext i
    simp only [Function.comp]
    ring

lemma linspace_getElem_zero (a b : ℚ) (n : ℕ) (h : 2 ≤ n) :
    (linspace a b n)[0]? = some a := by
  unfold linspace
  rw [if_neg (by omega)]
  rw [List.getElem?_map]
  rw [List.getElem?_range (by omega : 0 < n)]
  simp

/-- C5 counterexample: when the standard table cannot be read, the
load-failure fallback `_create_synthetic_data` does produce 44 AD and 34
YC rows, but its YC `CL` column is `linspace(-20, 20, 34)`, whose first
value is `-20`, while `100 * (SUVR - 1.0)` at the first YC SUVR value
`0.9` gives `-10` — so the YC CL values are not computed by the claimed
formula. -/
theorem c5_counterexample :
    loadStandardData .failed .failed none = createSyntheticData ∧
    createSyntheticData[3]? =
      some ⟨"CL", .nums ((linspace 50 150 44 ++ linspace (-20) 20 34).map FVal.fin)⟩ ∧
    (linspace (-20) 20 34)[0]? = some ((-20 : ℚ)) ∧
    (linspace (9/10) (11/10) 34)[0]? = some ((9/10 : ℚ)) ∧
    (100 : ℚ) * (9/10 - 1) = -10 ∧
    ((-20 : ℚ)) ≠ -10 := by
  refine ⟨rfl, rfl, ?_, ?_, by norm_num, by norm_num⟩
  · exact linspace_getElem_zero _ _ _ (by norm_num)
  · exact linspace_getElem_zero _ _ _ (by norm_num)

/-- C5 amended: the load-failure fallback (unreadable table, or an
openpyxl-parsed table that is empty or has fewer than 2 columns) is the
synthetic DataFrame with exactly 44 AD rows and 34 YC rows,
`SUVR = linspace(1.5, 2.5, 44)` resp. `linspace(0.9, 1.1, 34)`, and
`CL = linspace(50, 150, 44)` resp. `linspace(-20, 20, 34)`; the AD CL
column does equal `100*(SUVR - 1.0)`, but the YC CL column does not
(that formula would give `linspace(-10, 10, 34)`).  The
`100*(SUVR - 1.0)` formula for both cohorts holds only for the
extraction-failure fallback `_create_synthetic_values`. -/
theorem c5_synthetic_fallback_amended :
    (∀ xlrd, loadStandardData .failed xlrd none = createSyntheticData) ∧
    (∀ (t : Table) (xlrd : AltOutcome) (csv : Option Table),
      tableEmpty t = true →
      loadStandardData (.table t) xlrd csv = createSyntheticData) ∧
    (∀ (t : Table) (xlrd : AltOutcome) (csv : Option Table),
      t.length < 2 →
      loadStandardData (.table t) xlrd csv = createSyntheticData) ∧
    createSyntheticData.map Col.name = ["Subject", "Group", "SUVR", "CL"] ∧
    createSyntheticData[1]? =
      some ⟨"Group", .strs (List.replicate 44 "AD" ++ List.replicate 34 "YC")⟩ ∧
    createSyntheticData[2]? =
      some ⟨"SUVR",
        .nums ((linspace (3/2) (5/2) 44 ++ linspace (9/10) (11/10) 34).map FVal.fin)⟩ ∧
    createSyntheticData[3]? =
      some ⟨"CL", .nums ((linspace 50 150 44 ++ linspace (-20) 20 34).map FVal.fin)⟩ ∧
    linspace 50 150 44 = (linspace (3/2) (5/2) 44).map (fun x => 100 * (x - 1)) ∧
    linspace (-20) 20 34 ≠ (linspace (9/10) (11/10) 34).map (fun x => 100 * (x - 1)) ∧
    createSyntheticValues.2.1 = linspace 50 150 44 ∧
    createSyntheticValues.2.2.2 = linspace (-10) 10 34 := by
  have hAD : (linspace (3/2) (5/2) 44).map (fun x => 100 * (x - 1)) =
      linspace 50 150 44 := by
    rw [linspace_map_affine]
    norm_num
  have hYC : (linspace (9/10) (11/10) 34).map (fun x => 100 * (x - 1)) =
      linspace (-10) 10 34 := by
    rw [linspace_map_affine]
    norm_num
  refine ⟨fun _ => rfl, ?_, ?_, rfl, rfl, rfl, rfl, hAD.symm, ?_, hAD, hYC⟩
  · intro t xlrd csv h
    simp [loadStandardData, h]
  · intro t xlrd csv h
    simp [loadStandardData, h]
  · rw [hYC]
    intro h
    have h0 := congrArg (fun l => l[0]?) h
    simp only at h0
    rw [linspace_getElem_zero _ _ _ (by norm_num),
      linspace_getElem_zero _ _ _ (by norm_num)] at h0
    have := Option.some.inj h0
    norm_num at this

/-- Witness for C5 (amended): an empty parsed table triggers the
synthetic fallback. -/
theorem c5_synthetic_fallback_amended_witness :
    loadStandardData (.table []) .failed none = createSyntheticData :=
  (c5_synthetic_fallback_amended).2.1 [] .failed none rfl

/-! ### Claim C7: column identification priority -/

/-- C7: for every parsed table, SUVR/CL column identification first scans
columns (numeric-dtype ones) for a case-insensitive keyword match in the
header — picking the first match — and only when no header matches does it
pick the first numeric column whose NaN-free mean lies in `[0.8, 3.0]`
(SUVR), resp. in `[-30, 200]` excluding the column already assigned to
SUVR (CL). -/
theorem c7_column_identification (t : Table) :
    ((∃ c ∈ t, (c.isNumeric && nameHasKw ["SUVR", "SUV", "RATIO"] c) = true) →
      identifySuvrCol t =
        t.find? (fun c => c.isNumeric && nameHasKw ["SUVR", "SUV", "RATIO"] c)) ∧
    ((∀ c ∈ t, ¬ (c.isNumeric && nameHasKw ["SUVR", "SUV", "RATIO"] c) = true) →
      identifySuvrCol t =
        t.find? (fun c => c.isNumeric && meanInRange (4/5) 3 c)) ∧
    ((∃ c ∈ t, (c.isNumeric && nameHasKw ["CL", "CENTILOID"] c) = true) →
      identifyClCol t =
        t.find? (fun c => c.isNumeric && nameHasKw ["CL", "CENTILOID"] c)) ∧
    ((∀ c ∈ t, ¬ (c.isNumeric && nameHasKw ["CL", "CENTILOID"] c) = true) →
      identifyClCol t =
        t.find? (fun c => c.isNumeric &&
          !(match identifySuvrCol t with
            | some s => c.name == s.name
            | none => false) &&
          meanInRange (-30) 200 c)) := by
  refine ⟨fun hex => ?_, fun hall => ?_, fun hex => ?_, fun hall => ?_⟩
  · unfold identifySuvrCol
    cases hf : t.find? (fun c => c.isNumeric && nameHasKw ["SUVR", "SUV", "RATIO"] c) with
    | some c => rfl
    | none =>
      obtain ⟨c, hm, hc⟩ := hex
      exact absurd hc (by simpa using List.find?_eq_none.mp hf c hm)
  · unfold identifySuvrCol
    rw [List.find?_eq_none.mpr (by simpa using hall)]
  · unfold identifyClCol
    cases hf : t.find? (fun c => c.isNumeric && nameHasKw ["CL", "CENTILOID"] c) with
    | some c => rfl
    | none =>
      obtain ⟨c, hm, hc⟩ := hex
      exact absurd hc (by simpa using List.find?_eq_none.mp hf c hm)
  · unfold identifyClCol
    rw [List.find?_eq_none.mpr (by simpa using hall)]

/-- Witness for C7: a table with a numeric column literally named `SUVR`
returns that column by the header scan; a table whose only numeric column
is named `A` with mean 2 returns it via the range heuristic. -/
theorem c7_column_identification_witness :
    identifySuvrCol [⟨"Subject", .strs ["AD01"]⟩, ⟨"SUVR", .nums [.fin 1, .fin 2]⟩] =
      some ⟨"SUVR", .nums [.fin 1, .fin 2]⟩ ∧
    identifySuvrCol [⟨"A", .nums [.fin 2]⟩] = some ⟨"A", .nums [.fin 2]⟩ := by
  constructor
  · have h := (c7_column_identification
        [⟨"Subject", .strs ["AD01"]⟩, ⟨"SUVR", .nums [.fin 1, .fin 2]⟩]).1
      ⟨⟨"SUVR", .nums [.fin 1, .fin 2]⟩,
        List.mem_cons_of_mem _ (List.mem_cons_self _ _), by decide⟩
    rw [h]
    rfl
  · have h := (c7_column_identification [⟨"A", .nums [.fin 2]⟩]).2.1
      (by decide)
    rw [h]
    simp only [List.find?]
    norm_num [Col.isNumeric, meanInRange, colRangeMean, Col.numVals, fmean, fsum,
      List.filter, List.foldl, FVal.isNaN, FVal.add, FVal.div, FVal.le, FVal.lt]

/-! ### Claim C8: Bland-Altman agreement analysis -/

lemma zip_map_fst_snd {α β : Type} (l : List (α × β)) :
    (l.map Prod.fst).zip (l.map Prod.snd) = l := by
  induction l with
  | nil => rfl
  | cons p t ih => simp [ih]

lemma FVal.sub_fin (a b : ℚ) : FVal.sub (.fin a) (.fin b) = .fin (a - b) := by
  simp [FVal.sub, FVal.add, FVal.neg, sub_eq_add_neg]

lemma foldl_add_fin (l : List ℚ) : ∀ a : ℚ,
    List.foldl FVal.add (.fin a) (l.map .fin) = .fin (a + l.sum) := by
  induction l with
  | nil => intro a; simp
  | cons q t ih =>
    intro a
    simp only [List.map_cons, List.foldl_cons, FVal.add, List.sum_cons]
    rw [ih]
    ring_nf

lemma fsum_map_fin (l : List ℚ) : fsum (l.map .fin) = .fin l.sum := by
  unfold fsum
  rw [foldl_add_fin]
  norm_num

lemma fmean_map_fin (l : List ℚ) (h : l ≠ []) :
    fmean (l.map .fin) = .fin (lmean l) := by
  unfold fmean lmean
  rw [fsum_map_fin, List.length_map]
  have hn : ((l.length : ℚ)) ≠ 0 := by
    exact_mod_cast Nat.cast_ne_zero.mpr (List.length_pos.mpr h).ne'
  simp [FVal.div, hn]

lemma zipWith_sub_fin (xs ys : List ℚ) :
    List.zipWith FVal.sub (xs.map .fin) (ys.map .fin) =
      (List.zipWith (fun a b => a - b) xs ys).map .fin := by
  induction xs generalizing ys with
  | nil => simp
  | cons x xt ih =>
    cases ys with
    | nil => simp
    | cons y yt => simp [FVal.sub_fin, ih]

lemma baTrim_length (a b : List FVal) :
    (baTrim a b).1.length = min a.length b.length ∧
    (baTrim a b).2.length = min a.length b.length := by
  unfold baTrim
  by_cases h : a.length ≠ b.length
  · rw [if_pos h]
    refine ⟨?_, ?_⟩ <;> simp only [List.length_take] <;> omega
  · rw [if_neg h]
    push_neg at h
    refine ⟨?_, ?_⟩ <;> simp only <;> omega

lemma baClean_zip (std calcv : List FVal) :
    ((baClean std calcv).1).zip ((baClean std calcv).2) =
      ((baTrim std calcv).1.zip (baTrim std calcv).2).filter
        (fun p => !p.1.isNaN && !p.2.isNaN) := by
  unfold baClean
  exact zip_map_fst_snd _

lemma baClean_length (std calcv : List FVal) :
    (baClean std calcv).2.length = (baClean std calcv).1.length := by
  unfold baClean
  simp

/-- C8 counterexample: the joint drop only removes NaN pairs, not
non-finite pairs — an infinite pair survives the cleanup (and then poisons
the statistics: the reported mean difference is `-inf` and the variance is
NaN), contradicting the claim that non-finite pairs are dropped before the
statistics are computed. -/
theorem c8_counterexample :
    (baClean [FVal.pinf, .fin 1, .fin 2, .fin 3]
        [.fin 0, .fin 1, .fin 2, .fin 3]).1 =
      [FVal.pinf, .fin 1, .fin 2, .fin 3] ∧
    FVal.isFinite FVal.pinf = false ∧
    baHalf [FVal.pinf, .fin 1, .fin 2, .fin 3] [.fin 0, .fin 1, .fin 2, .fin 3] =
      some ⟨FVal.ninf, FVal.nan⟩ := by
  have hclean : baClean [FVal.pinf, .fin 1, .fin 2, .fin 3]
      [.fin 0, .fin 1, .fin 2, .fin 3] =
      ([FVal.pinf, .fin 1, .fin 2, .fin 3], [.fin 0, .fin 1, .fin 2, .fin 3]) := by
    simp only [baClean, baTrim, List.length, List.zip, List.zipWith, List.filter,
      List.map]
  refine ⟨by rw [hclean], rfl, ?_⟩
  unfold baHalf
  rw [hclean]
  simp only [baDiffs, List.zipWith, List.length, List.map, List.foldl, fmean, fsum]
  norm_num [FVal.sub, FVal.add, FVal.neg, FVal.mul, FVal.div]

/-- C8 amended: the Bland-Altman computation trims both arrays to the
shorter length, then drops exactly the pairs where either entry is NaN
(infinities are not dropped); with 2 or fewer remaining points it reports
"insufficient data" (`none`, never raising); and on finite data with at
least 3 points it reports `meanDiff = mean(calc - std)` and the population
variance of the differences, with the limits of agreement lying at
`meanDiff ± 1.96 · stdDiff`. -/
theorem c8_bland_altman_amended (std calcv : List FVal) :
    (baTrim std calcv).1.length = min std.length calcv.length ∧
    (baTrim std calcv).2.length = min std.length calcv.length ∧
    ((baClean std calcv).1.zip ((baClean std calcv).2) =
      ((baTrim std calcv).1.zip ((baTrim std calcv).2)).filter
        (fun p => !p.1.isNaN && !p.2.isNaN)) ∧
    (baHalf std calcv = none ↔ (baClean std calcv).1.length ≤ 2) ∧
    (∀ qs qc : List ℚ, qs.length = qc.length → 2 < qs.length →
      baHalf (qs.map .fin) (qc.map .fin) =
        some ⟨.fin (lmean (List.zipWith (fun a b => a - b) qc qs)),
              .fin (lmean ((List.zipWith (fun a b => a - b) qc qs).map
                (fun d => (d - lmean (List.zipWith (fun a b => a - b) qc qs)) *
                  (d - lmean (List.zipWith (fun a b => a - b) qc qs)))))⟩) ∧
    (∀ md sd : ℚ, baUpperLoa md sd - md = 196/100 * sd ∧
      md - baLowerLoa md sd = 196/100 * sd) := by
  refine ⟨(baTrim_length std calcv).1, (baTrim_length std calcv).2,
    baClean_zip std calcv, ?_, ?_, ?_⟩
  · simp only [baHalf, baClean_length std calcv]
    by_cases h : 2 < (baClean std calcv).1.length
    · rw [if_pos (by simp [h])]
      exact iff_of_false (by simp) (by omega)
    · rw [if_neg (by simp [h])]
      exact iff_of_true rfl (by omega)
  · intro qs qc hlen h3
    have htrim : baTrim (qs.map .fin) (qc.map .fin) = (qs.map .fin, qc.map .fin) := by
      unfold baTrim
      rw [if_neg (by simp [hlen])]
    have hfilter : ((qs.map FVal.fin).zip (qc.map FVal.fin)).filter
        (fun p => !p.1.isNaN && !p.2.isNaN) =
        (qs.map FVal.fin).zip (qc.map FVal.fin) := by
      apply List.filter_eq_self.mpr
      intro p hp
      obtain ⟨h1, h2⟩ := List.of_mem_zip hp
      obtain ⟨a, _, ha⟩ := List.mem_map.mp h1
      obtain ⟨b, _, hb⟩ := List.mem_map.mp h2
      rw [← ha, ← hb]
      rfl
    have hclean : baClean (qs.map .fin) (qc.map .fin) =
        (qs.map .fin, qc.map .fin) := by
      unfold baClean
      rw [htrim]
      simp only [hfilter]
      rw [List.map_fst_zip _ _ (by simp [hlen]), List.map_snd_zip _ _ (by simp [hlen])]
    have hdiffs : baDiffs (qs.map .fin) (qc.map .fin) =
        (List.zipWith (fun a b => a - b) qc qs).map .fin := by
      unfold baDiffs
      exact zipWith_sub_fin qc qs
    have hdne : List.zipWith (fun a b => a - b) qc qs ≠ [] := by
      have : (List.zipWith (fun a b => a - b) qc qs).length = qs.length := by
        simp [List.length_zipWith]
        omega
      intro hnil
      rw [hnil] at this
      simp at this
      omega
    simp only [baHalf, hclean]
    rw [if_pos (by simp only [List.length_map]; simp [hlen]; omega)]
    rw [hdiffs, fmean_map_fin _ hdne]
    congr 1
    congr 1
    rw [List.map_map]
    have hcomp : (fun d => FVal.mul (FVal.sub d (.fin (lmean (List.zipWith (fun a b => a - b) qc qs))))
          (FVal.sub d (.fin (lmean (List.zipWith (fun a b => a - b) qc qs))))) ∘ FVal.fin =
        FVal.fin ∘ (fun d => (d - lmean (List.zipWith (fun a b => a - b) qc qs)) *
          (d - lmean (List.zipWith (fun a b => a - b) qc qs))) := by
      funext d
      simp [Function.comp, FVal.sub_fin, FVal.mul]
    rw [hcomp, ← List.map_map]
    rw [fmean_map_fin _ (by simpa using hdne)]
  · intro md sd
    unfold baUpperLoa baLowerLoa
    constructor <;> ring

/-- Witness for C8 (amended): trimming on arrays of lengths 1 and 2, and
the statistics on standard values `[0,0,0,0]` and calculated values
`[1,1,3,3]` — mean difference 2, variance 1. -/
theorem c8_bland_altman_amended_witness :
    (baTrim [FVal.fin 5] [FVal.fin 1, FVal.fin 2]).1.length = min 1 2 ∧
    baHalf ([(0 : ℚ), 0, 0, 0].map .fin) ([(1 : ℚ), 1, 3, 3].map .fin) =
      some ⟨.fin 2, .fin 1⟩ := by
  constructor
  · exact (c8_bland_altman_amended [FVal.fin 5] [FVal.fin 1, FVal.fin 2]).1
  · have h := (c8_bland_altman_amended [] []).2.2.2.2.1
      [(0 : ℚ), 0, 0, 0] [(1 : ℚ), 1, 3, 3] (by simp) (by simp)
    rw [h]
    norm_num [lmean, List.zipWith]

end Mispm
